import Mathlib

/-!
Verification of the label-matrix utilities of `nucleus/object/__init__.py`:
`downsample_labels`, `check_consistency`, `crop_labels_and_image`,
`size_similarly`, `overlay_labels` and `_colors`.

Numpy arrays are embedded two ways:
* `NDArr`: a shape (list of axis lengths) together with a total value
  function on index lists; only indices valid for the shape are meaningful.
  Slicing an array at the origin keeps the value function and shrinks the
  shape, which matches numpy views for origin-anchored basic slices.
* `NView`/`Store` (further below): an explicit buffer model used for the
  aliasing (view-versus-copy) and mutation claims, where a view is a buffer
  identifier plus the owning allocation shape used for row-major offsets.
-/

namespace NucleusObject

/-- An n-dimensional array: a shape and a value at every index list.
Values at indices that are not valid for the shape are irrelevant. -/
structure NDArr (α : Type) where
  shape : List Nat
  val : List Nat → α

/-- `validIdxB shape idx` decides whether `idx` indexes an element of an
array of shape `shape`: same length, every coordinate below its axis. -/
def validIdxB : List Nat → List Nat → Bool
  | [], [] => true
  | s :: ss, i :: is => decide (i < s) && validIdxB ss is
  | _, _ => false

/-- All valid indices of a shape, in row-major (lexicographic) order;
a 0-dimensional shape has exactly one element, the empty index. -/
def allIdx : List Nat → List (List Nat)
  | [] => [[]]
  | s :: ss => (List.range s).flatMap fun i => (allIdx ss).map fun idx => i :: idx

theorem mem_allIdx (shape : List Nat) :
    ∀ idx : List Nat, idx ∈ allIdx shape ↔ validIdxB shape idx = true := by
  induction shape with
  | nil =>
    intro idx
    cases idx <;> simp [allIdx, validIdxB]
  | cons s ss ih =>
    intro idx
    cases idx with
    | nil =>
      simp [allIdx, validIdxB, List.mem_flatMap]
    | cons i is =>
      simp only [allIdx, validIdxB, List.mem_flatMap, List.mem_map, List.mem_range]
      constructor
      · rintro ⟨j, hj, t, ht, heq⟩
        injection heq with e1 e2
        subst e1
        subst e2
        simp only [Bool.and_eq_true, decide_eq_true_eq]
        exact ⟨hj, (ih t).mp ht⟩
      · intro h
        simp only [Bool.and_eq_true, decide_eq_true_eq] at h
        exact ⟨i, h.1, is, (ih is).mpr h.2, rfl⟩

theorem allIdx_eq_nil_iff (shape : List Nat) :
    allIdx shape = [] ↔ shape.prod = 0 := by
  induction shape with
  | nil => simp [allIdx]
  | cons s ss ih =>
    rw [List.prod_cons, Nat.mul_eq_zero]
    constructor
    · intro h
      rcases Nat.eq_zero_or_pos s with hs | hs
      · exact Or.inl hs
      · right
        apply ih.mp
        by_contra hne
        rcases List.exists_mem_of_ne_nil _ hne with ⟨t, ht⟩
        have hmem : (0 : Nat) :: t ∈ allIdx (s :: ss) := by
          unfold allIdx
          simp only [List.mem_flatMap, List.mem_map, List.mem_range]
          exact ⟨0, hs, t, ht, rfl⟩
        rw [h] at hmem
        exact absurd hmem (List.not_mem_nil _)
    · rintro (rfl | hss)
      · unfold allIdx
        simp
      · unfold allIdx
        rw [ih.mpr hss]
        simp

/-- Maximum element of a list of integers, `none` on the empty list
(numpy raises on `max` of an empty array). -/
def listMax : List Int → Option Int
  | [] => none
  | x :: xs => some (xs.foldl max x)

theorem le_foldl_max (xs : List Int) : ∀ a : Int, a ≤ xs.foldl max a := by
  induction xs with
  | nil => intro a; simp
  | cons x xs ih =>
    intro a
    exact le_trans (le_max_left a x) (ih (max a x))

theorem foldl_max_of_mem {x : Int} {xs : List Int} (h : x ∈ xs) :
    ∀ a : Int, x ≤ xs.foldl max a := by
  induction xs with
  | nil => exact absurd h (List.not_mem_nil _)
  | cons y ys ih =>
    intro a
    rcases List.mem_cons.mp h with rfl | hmem
    · exact le_trans (le_max_right a x) (le_foldl_max ys (max a x))
    · exact ih hmem (max a y)

theorem listMax_is_ub {x m : Int} {l : List Int} (hx : x ∈ l)
    (hm : listMax l = some m) : x ≤ m := by
  cases l with
  | nil => exact absurd hx (List.not_mem_nil _)
  | cons y ys =>
    have hm2 : ys.foldl max y = m := by
      simpa [listMax] using hm
    rcases List.mem_cons.mp hx with rfl | hmem
    · exact hm2 ▸ le_foldl_max ys x
    · exact hm2 ▸ foldl_max_of_mem hmem y

/-- `numpy.max` over all elements of an array; `none` when the array has
zero elements (numpy raises a `ValueError` there). -/
def npMax (a : NDArr Int) : Option Int :=
  listMax ((allIdx a.shape).map a.val)

/-- The three signed integer dtypes `downsample_labels` chooses among. -/
inductive NpDType where
  | int8 : NpDType
  | int16 : NpDType
  | int32 : NpDType
deriving DecidableEq

/-- Wrap an integer into the range of a `w`-bit two's-complement signed
integer, as numpy's `astype` does on overflow. -/
def toSigned (w : Nat) (v : Int) : Int :=
  (v + 2 ^ (w - 1)) % 2 ^ w - 2 ^ (w - 1)

/-- `labels.astype(intW)`: same shape, every value wrapped to `w` bits. -/
def astype (w : Nat) (a : NDArr Int) : NDArr Int :=
  ⟨a.shape, fun idx => toSigned w (a.val idx)⟩

/-- `downsample_labels(labels)`: take the maximum, then cast to `int8`
when it is below 128, to `int16` when below 32768, and to `int32`
otherwise.  Returns the chosen dtype with the cast array; `none` models
the `ValueError` numpy raises for the max of an empty array. -/
def downsample_labels (labels : NDArr Int) : Option (NpDType × NDArr Int) :=
  match npMax labels with
  | none => none
  | some labels_max =>
    if labels_max < 128 then some (NpDType.int8, astype 8 labels)
    else if labels_max < 32768 then some (NpDType.int16, astype 16 labels)
    else some (NpDType.int32, astype 32 labels)

theorem toSigned_eq_self {w : Nat} {v : Int} (hw : w ≠ 0)
    (h0 : 0 ≤ v) (h1 : v < 2 ^ (w - 1)) : toSigned w v = v := by
  obtain ⟨k, rfl⟩ : ∃ k, w = k + 1 :=
    ⟨w - 1, (Nat.succ_pred_eq_of_pos (Nat.pos_of_ne_zero hw)).symm⟩
  unfold toSigned
  simp only [Nat.add_sub_cancel] at h1 ⊢
  have hsplit : (2 : Int) ^ (k + 1) = 2 ^ k + 2 ^ k := by
    rw [pow_succ]
    ring
  have hlt : v + 2 ^ k < 2 ^ (k + 1) := by omega
  have hge : (0 : Int) ≤ v + 2 ^ k := by positivity
  rw [Int.emod_eq_of_lt hge hlt]
  ring

/-- A constant-valued array, used to instantiate theorems at concrete inputs. -/
def constA (s : List Nat) (c : Int) : NDArr Int :=
  NDArr.mk s (fun _ => c)

/-- C1: for a label matrix with maximum identifier `m`, `downsample_labels`
returns the matrix cast to the narrowest signed width: 8-bit when `m < 128`,
16-bit when `128 ≤ m < 32768`, 32-bit when `32768 ≤ m`. -/
theorem downsample_labels_width_selection (labels : NDArr Int) (m : Int)
    (h : npMax labels = some m) :
    (m < 128 → downsample_labels labels = some (NpDType.int8, astype 8 labels)) ∧
    (128 ≤ m → m < 32768 →
      downsample_labels labels = some (NpDType.int16, astype 16 labels)) ∧
    (32768 ≤ m → downsample_labels labels = some (NpDType.int32, astype 32 labels)) := by
  have hd : downsample_labels labels =
      (if m < 128 then some (NpDType.int8, astype 8 labels)
       else if m < 32768 then some (NpDType.int16, astype 16 labels)
       else some (NpDType.int32, astype 32 labels)) := by
    unfold downsample_labels
    rw [h]
  rw [hd]
  refine ⟨?_, ?_, ?_⟩
  · intro h1
    rw [if_pos h1]
  · intro h1 h2
    rw [if_neg (by omega), if_pos h2]
  · intro h1
    rw [if_neg (by omega), if_neg (by omega)]

/-- Witness for C1 at the four boundary maxima 127, 128, 32767, 32768. -/
theorem downsample_labels_width_selection_witness :
    downsample_labels (constA [1, 1] 127) = some (NpDType.int8, astype 8 (constA [1, 1] 127)) ∧
    downsample_labels (constA [1, 1] 128) = some (NpDType.int16, astype 16 (constA [1, 1] 128)) ∧
    downsample_labels (constA [1, 1] 32767) =
      some (NpDType.int16, astype 16 (constA [1, 1] 32767)) ∧
    downsample_labels (constA [1, 1] 32768) =
      some (NpDType.int32, astype 32 (constA [1, 1] 32768)) :=
  ⟨(downsample_labels_width_selection _ 127 (by decide)).1 (by decide),
   (downsample_labels_width_selection _ 128 (by decide)).2.1 (by decide) (by decide),
   (downsample_labels_width_selection _ 32767 (by decide)).2.1 (by decide) (by decide),
   (downsample_labels_width_selection _ 32768 (by decide)).2.2 (by decide)⟩

/-- C7: on a label matrix with non-negative entries whose maximum fits the
selected width, `downsample_labels` keeps every entry unchanged: identifiers
are never renumbered, only the encoding width changes. -/
theorem downsample_labels_preserves_entries (labels : NDArr Int) (m : Int)
    (hmax : npMax labels = some m)
    (hnn : ∀ idx, validIdxB labels.shape idx = true → 0 ≤ labels.val idx)
    (hfit : m < 2 ^ 31) :
    ∃ d b, downsample_labels labels = some (d, b) ∧ b.shape = labels.shape ∧
      ∀ idx, validIdxB labels.shape idx = true → b.val idx = labels.val idx := by
  have hub : ∀ idx, validIdxB labels.shape idx = true → labels.val idx ≤ m := by
    intro idx hv
    exact listMax_is_ub (List.mem_map_of_mem _ ((mem_allIdx _ idx).mpr hv)) hmax
  have hd : downsample_labels labels =
      (if m < 128 then some (NpDType.int8, astype 8 labels)
       else if m < 32768 then some (NpDType.int16, astype 16 labels)
       else some (NpDType.int32, astype 32 labels)) := by
    unfold downsample_labels
    rw [hmax]
  rw [hd]
  by_cases h8 : m < 128
  · rw [if_pos h8]
    refine ⟨_, _, rfl, rfl, ?_⟩
    intro idx hv
    refine toSigned_eq_self (by norm_num) (hnn idx hv) ?_
    have := hub idx hv
    norm_num
    omega
  · rw [if_neg h8]
    by_cases h16 : m < 32768
    · rw [if_pos h16]
      refine ⟨_, _, rfl, rfl, ?_⟩
      intro idx hv
      refine toSigned_eq_self (by norm_num) (hnn idx hv) ?_
      have := hub idx hv
      norm_num
      omega
    · rw [if_neg h16]
      refine ⟨_, _, rfl, rfl, ?_⟩
      intro idx hv
      refine toSigned_eq_self (by norm_num) (hnn idx hv) ?_
      have := hub idx hv
      norm_num
      omega

/-- Witness for C7 on a concrete 1×2 matrix with maximum 200. -/
theorem downsample_labels_preserves_entries_witness :
    ∃ d b, downsample_labels (NDArr.mk [1, 2] fun idx => if idx = [0, 1] then 200 else 3) =
        some (d, b) ∧
      b.shape = [1, 2] ∧
      ∀ idx, validIdxB [1, 2] idx = true →
        b.val idx = (NDArr.mk [1, 2] fun idx => if idx = [0, 1] then (200 : Int) else 3).val idx := by
  have h := downsample_labels_preserves_entries
    (NDArr.mk [1, 2] fun idx => if idx = [0, 1] then 200 else 3) 200
    (by decide)
    (by
      intro idx hv
      dsimp only [NDArr.val]
      split <;> norm_num)
    (by decide)
  exact h

/-- C9: `downsample_labels` raises exactly on arrays with zero elements
(the maximum of an empty array is undefined); every non-empty input
returns normally. -/
theorem downsample_labels_empty_raises (labels : NDArr Int) :
    (labels.shape.prod = 0 → downsample_labels labels = none) ∧
    (labels.shape.prod ≠ 0 → ∃ r, downsample_labels labels = some r) := by
  constructor
  · intro h
    unfold downsample_labels npMax
    rw [(allIdx_eq_nil_iff _).mpr h]
    rfl
  · intro h
    unfold downsample_labels npMax
    rcases hl : allIdx labels.shape with _ | ⟨t, ts⟩
    · exact absurd ((allIdx_eq_nil_iff _).mp hl) h
    · simp only [List.map_cons, listMax]
      split_ifs <;> exact ⟨_, rfl⟩

/-- Witness for C9: a 0×3 matrix is rejected, a 1×1 matrix is accepted. -/
theorem downsample_labels_empty_raises_witness :
    downsample_labels (constA [0, 3] 0) = none ∧
    ∃ r, downsample_labels (constA [1, 1] 5) = some r :=
  ⟨(downsample_labels_empty_raises _).1 (by decide),
   (downsample_labels_empty_raises _).2 (by decide)⟩

/-- Number of axes of an array, numpy's `ndim`. -/
def NDArr.ndim {α : Type} (a : NDArr α) : Nat :=
  a.shape.length

/-- `numpy.all(a >= 0)`: every element of the array is non-negative. -/
def nonnegB (a : NDArr Int) : Bool :=
  (allIdx a.shape).all fun idx => decide (0 ≤ a.val idx)

/-- Python `repr` of a shape tuple, as it appears in assertion messages. -/
def pyShape (shape : List Nat) : String :=
  match shape with
  | [] => "()"
  | [s] => "(" ++ toString s ++ ",)"
  | _ => "(" ++ String.intercalate ", " (shape.map toString) ++ ")"

/-- A Python `assert cond, msg`: an `AssertionError` carries `msg`, and a
bare `assert cond` carries the empty message. -/
def firstFailure : List (Bool × String) → Except String Unit
  | [] => Except.ok ()
  | (b, msg) :: rest => if b then firstFailure rest else Except.error msg

/-- Lift a check over an optional matrix; an absent matrix passes. -/
def optTrue (p : NDArr Int → Bool) : Option (NDArr Int) → Bool
  | none => true
  | some a => p a

/-- `ndim` of an optional matrix (only read when the matrix is present). -/
def optNdim : Option (NDArr Int) → Nat
  | none => 0
  | some a => a.ndim

/-- shape of an optional matrix (only read when the matrix is present). -/
def optShape : Option (NDArr Int) → List Nat
  | none => []
  | some a => a.shape

/-- The shape comparison guarded by presence of both matrices. -/
def sameShapeB : Option (NDArr Int) → Option (NDArr Int) → Bool
  | some a, some b => decide (a.shape = b.shape)
  | _, _ => true

/-- `check_consistency(segmented, unedited_segmented, small_removed_segmented)`:
the eight assertions of the source in order — non-negativity of each present
matrix (bare asserts, empty message), two-dimensionality of each present
matrix, and shape equality of the segmented/unedited and the
segmented/small-removed pairs. -/
def check_consistency
    (segmented unedited_segmented small_removed_segmented : Option (NDArr Int)) :
    Except String Unit :=
  firstFailure
    [(optTrue nonnegB segmented, ""),
     (optTrue nonnegB unedited_segmented, ""),
     (optTrue nonnegB small_removed_segmented, ""),
     (optTrue (fun a => decide (a.ndim = 2)) segmented,
       "Segmented label matrix must have two dimensions, has " ++
         toString (optNdim segmented)),
     (optTrue (fun a => decide (a.ndim = 2)) unedited_segmented,
       "Unedited segmented label matrix must have two dimensions, has " ++
         toString (optNdim unedited_segmented)),
     (optTrue (fun a => decide (a.ndim = 2)) small_removed_segmented,
       "Small removed segmented label matrix must have two dimensions, has " ++
         toString (optNdim small_removed_segmented)),
     (sameShapeB segmented unedited_segmented,
       "Segmented " ++ pyShape (optShape segmented) ++ " and unedited segmented " ++
         pyShape (optShape unedited_segmented) ++ " shapes differ"),
     (sameShapeB segmented small_removed_segmented,
       "Segmented " ++ pyShape (optShape segmented) ++ " and small removed segmented " ++
         pyShape (optShape small_removed_segmented) ++ " shapes differ")]

/-- Some present matrix among the option holds a negative value. -/
def hasNeg (o : Option (NDArr Int)) : Prop :=
  ∃ a idx, o = some a ∧ validIdxB a.shape idx = true ∧ a.val idx < 0

/-- The matrix is present but not exactly two-dimensional. -/
def notTwoD (o : Option (NDArr Int)) : Prop :=
  ∃ a, o = some a ∧ a.ndim ≠ 2

/-- Both matrices are present and their shapes differ. -/
def shapeMismatch (o p : Option (NDArr Int)) : Prop :=
  ∃ a b, o = some a ∧ p = some b ∧ a.shape ≠ b.shape

theorem firstFailure_cons_ok (b : Bool) (msg : String) (rest : List (Bool × String)) :
    firstFailure ((b, msg) :: rest) = Except.ok () ↔
      (b = true ∧ firstFailure rest = Except.ok ()) := by
  cases b <;> simp [firstFailure]

theorem optTrue_nonneg_iff (o : Option (NDArr Int)) :
    optTrue nonnegB o = true ↔ ¬ hasNeg o := by
  cases o with
  | none => simp [optTrue, hasNeg]
  | some a =>
    simp only [optTrue, hasNeg, nonnegB, List.all_eq_true, decide_eq_true_eq]
    constructor
    · rintro h ⟨b, idx, hb, hv, hneg⟩
      injection hb with hb
      subst hb
      exact absurd (h idx ((mem_allIdx _ idx).mpr hv)) (by omega)
    · intro h idx hmem
      by_contra hc
      exact h ⟨a, idx, rfl, (mem_allIdx _ idx).mp hmem, by omega⟩

theorem optTrue_twoD_iff (o : Option (NDArr Int)) :
    optTrue (fun a => decide (a.ndim = 2)) o = true ↔ ¬ notTwoD o := by
  cases o with
  | none => simp [optTrue, notTwoD]
  | some a =>
    simp only [optTrue, notTwoD, decide_eq_true_eq]
    constructor
    · rintro h ⟨b, hb, hnd⟩
      injection hb with hb
      subst hb
      exact hnd h
    · intro h
      by_contra hc
      exact h ⟨a, rfl, hc⟩

theorem sameShapeB_iff (o p : Option (NDArr Int)) :
    sameShapeB o p = true ↔ ¬ shapeMismatch o p := by
  cases o with
  | none => simp [sameShapeB, shapeMismatch]
  | some a =>
    cases p with
    | none => simp [sameShapeB, shapeMismatch]
    | some b =>
      simp only [sameShapeB, shapeMismatch, decide_eq_true_eq]
      constructor
      · rintro h ⟨x, y, hx, hy, hne⟩
        injection hx with hx
        injection hy with hy
        subst hx
        subst hy
        exact hne h
      · intro h
        by_contra hc
        exact h ⟨a, b, rfl, rfl, hc⟩

theorem check_consistency_ok_iff (s u r : Option (NDArr Int)) :
    check_consistency s u r = Except.ok () ↔
      (¬ hasNeg s ∧ ¬ hasNeg u ∧ ¬ hasNeg r ∧
       ¬ notTwoD s ∧ ¬ notTwoD u ∧ ¬ notTwoD r ∧
       ¬ shapeMismatch s u ∧ ¬ shapeMismatch s r) := by
  unfold check_consistency
  rw [firstFailure_cons_ok, firstFailure_cons_ok, firstFailure_cons_ok,
    firstFailure_cons_ok, firstFailure_cons_ok, firstFailure_cons_ok,
    firstFailure_cons_ok, firstFailure_cons_ok]
  rw [optTrue_nonneg_iff, optTrue_nonneg_iff, optTrue_nonneg_iff,
    optTrue_twoD_iff, optTrue_twoD_iff, optTrue_twoD_iff,
    sameShapeB_iff, sameShapeB_iff]
  simp [firstFailure]

theorem except_error_exists (x : Except String Unit) :
    (∃ e, x = Except.error e) ↔ x ≠ Except.ok () := by
  cases x with
  | ok v => cases v; simp
  | error e => simp

/-- Counterexample to C2: with `segmented` absent and the two other matrices
present with differing shapes (1×1 versus 2×2), `check_consistency` returns
normally instead of raising — the unedited/small-removed pair is never
compared. -/
theorem check_consistency_c2_cex :
    check_consistency none (some (constA [1, 1] 0)) (some (constA [2, 2] 0)) =
      Except.ok () := by
  rfl

/-- C2 (amended): `check_consistency` verifies equal shape only for the two
pairs that involve `segmented`.  When `segmented` is absent, present
two-dimensional non-negative `unedited_segmented` and
`small_removed_segmented` matrices pass even with differing shapes; when
`segmented` is present, a shape difference with either other matrix
raises. -/
theorem check_consistency_segmented_pairs_only (u r : NDArr Int)
    (hu : nonnegB u = true) (hr : nonnegB r = true)
    (hu2 : u.ndim = 2) (hr2 : r.ndim = 2) :
    check_consistency none (some u) (some r) = Except.ok () ∧
    (∀ s : NDArr Int, s.shape ≠ u.shape →
      ∃ e, check_consistency (some s) (some u) none = Except.error e) ∧
    (∀ s : NDArr Int, s.shape ≠ r.shape →
      ∃ e, check_consistency (some s) (some r) none = Except.error e) := by
  refine ⟨?_, ?_, ?_⟩
  · rw [check_consistency_ok_iff]
    refine ⟨?_, ?_, ?_, ?_, ?_, ?_, ?_, ?_⟩
    · simp [hasNeg]
    · exact (optTrue_nonneg_iff (some u)).mp (by simpa [optTrue] using hu)
    · exact (optTrue_nonneg_iff (some r)).mp (by simpa [optTrue] using hr)
    · simp [notTwoD]
    · exact (optTrue_twoD_iff (some u)).mp (by simp [optTrue, hu2])
    · exact (optTrue_twoD_iff (some r)).mp (by simp [optTrue, hr2])
    · simp [shapeMismatch]
    · simp [shapeMismatch]
  · intro s hs
    rw [except_error_exists]
    intro hok
    exact ((check_consistency_ok_iff _ _ _).mp hok).2.2.2.2.2.2.1 ⟨s, u, rfl, rfl, hs⟩
  · intro s hs
    rw [except_error_exists]
    intro hok
    exact ((check_consistency_ok_iff _ _ _).mp hok).2.2.2.2.2.2.1 ⟨s, r, rfl, rfl, hs⟩

/-- Witness for the amended C2 at concrete 1×1, 2×2 and 3×3 matrices. -/
theorem check_consistency_segmented_pairs_only_witness :
    check_consistency none (some (constA [1, 1] 0)) (some (constA [2, 2] 0)) =
        Except.ok () ∧
    ∃ e, check_consistency (some (constA [3, 3] 0)) (some (constA [1, 1] 0)) none =
        Except.error e := by
  have h := check_consistency_segmented_pairs_only (constA [1, 1] 0) (constA [2, 2] 0)
    (by decide) (by decide) (by decide) (by decide)
  exact ⟨h.1, h.2.1 (constA [3, 3] 0) (by decide)⟩

/-- Counterexample to C6: a present matrix with a negative value raises via a
bare assert, so the failure message is the empty string — neither the
offending matrix nor any shape is identifiable from it. -/
theorem check_consistency_c6_cex :
    check_consistency (some (constA [1, 1] (-1))) none none = Except.error "" := by
  rfl

/-- C6 (amended): `check_consistency` never raises when all three arguments
are absent, and raises exactly when a checked violation holds — a negative
value or wrong dimensionality in a present matrix, or a shape mismatch in
one of the two checked pairs.  Shape-mismatch failures identify both shapes
in the message, while negative-value failures carry an empty message. -/
theorem check_consistency_error_characterization :
    (check_consistency none none none = Except.ok ()) ∧
    (∀ s u r : Option (NDArr Int),
      (∃ e, check_consistency s u r = Except.error e) ↔
        (hasNeg s ∨ hasNeg u ∨ hasNeg r ∨ notTwoD s ∨ notTwoD u ∨ notTwoD r ∨
         shapeMismatch s u ∨ shapeMismatch s r)) ∧
    (∀ s u : NDArr Int, nonnegB s = true → nonnegB u = true →
      s.ndim = 2 → u.ndim = 2 → s.shape ≠ u.shape →
      check_consistency (some s) (some u) none =
        Except.error ("Segmented " ++ pyShape s.shape ++ " and unedited segmented " ++
          pyShape u.shape ++ " shapes differ")) := by
  refine ⟨by rfl, ?_, ?_⟩
  · intro s u r
    rw [except_error_exists, Ne, check_consistency_ok_iff]
    tauto
  · intro s u hs hu hs2 hu2 hne
    simp [check_consistency, firstFailure, optTrue, optShape, optNdim, sameShapeB,
      hs, hu, hs2, hu2, hne]

/-- Witness for the amended C6: a concrete 1×2 versus 3×4 mismatch, with the
shapes spelled out in the message. -/
theorem check_consistency_error_characterization_witness :
    check_consistency (some (constA [1, 2] 0)) (some (constA [3, 4] 0)) none =
      Except.error "Segmented (1, 2) and unedited segmented (3, 4) shapes differ" := by
  have h := check_consistency_error_characterization.2.2 (constA [1, 2] 0) (constA [3, 4] 0)
    (by decide) (by decide) (by decide) (by decide) (by decide)
  exact h

/-- Origin-anchored basic slice `a[:d0, :d1, ...]` on the leading axes, any
trailing axes kept in full.  The value function is unchanged: a numpy view.
Callers in this file always pass bounds that are at most the axis lengths
(they are elementwise minima), so no clamping is needed. -/
def sliceLead {α : Type} (a : NDArr α) (dims : List Nat) : NDArr α :=
  NDArr.mk (dims ++ a.shape.drop dims.length) a.val

/-- `numpy.ones(shape, bool)`. -/
def np_ones_bool (shape : List Nat) : NDArr Bool :=
  NDArr.mk shape (fun _ => true)

/-- `numpy.zeros(shape, bool)`. -/
def np_zeros_bool (shape : List Nat) : NDArr Bool :=
  NDArr.mk shape (fun _ => false)

/-- `numpy.zeros(shape)` over integers. -/
def np_zeros (shape : List Nat) : NDArr Int :=
  NDArr.mk shape (fun _ => 0)

/-- The slice assignment `dst[:iMax, :jMax] = src[:iMax, :jMax]` (with any
trailing axes taken in full): inside the bound on the two leading coordinates
the value comes from `src`, elsewhere from `dst`. -/
def assignLead2 {α : Type} (dst : NDArr α) (iMax jMax : Nat) (src : List Nat → α) :
    NDArr α :=
  NDArr.mk dst.shape (fun idx =>
    if idx.getD 0 0 < iMax ∧ idx.getD 1 0 < jMax then src idx else dst.val idx)

/-- `crop_labels_and_image(labels, image)`: crop both arrays to the least
common extent of the leading spatial axes, from index 0.  The branch
structure follows the source; in this embedding a trailing `:` slice is a
no-op, so sibling branches coincide. -/
def crop_labels_and_image {α β : Type} (labels : NDArr α) (image : NDArr β) :
    NDArr α × NDArr β :=
  let min_dim1 := min (labels.shape.getD 0 0) (image.shape.getD 0 0)
  let min_dim2 := min (labels.shape.getD 1 0) (image.shape.getD 1 0)
  if labels.ndim = 3 then
    let min_dim3 := min (labels.shape.getD 2 0) (image.shape.getD 2 0)
    if image.ndim = 4 then
      (sliceLead labels [min_dim1, min_dim2, min_dim3],
       sliceLead image [min_dim1, min_dim2, min_dim3])
    else
      (sliceLead labels [min_dim1, min_dim2, min_dim3],
       sliceLead image [min_dim1, min_dim2, min_dim3])
  else
    if image.ndim = 3 then
      (sliceLead labels [min_dim1, min_dim2], sliceLead image [min_dim1, min_dim2])
    else
      (sliceLead labels [min_dim1, min_dim2], sliceLead image [min_dim1, min_dim2])

/-- `size_similarly(labels, secondary)`: return `secondary` resized to the
spatial shape of `labels` together with a validity mask, following the three
source cases — equal leading shapes, secondary at least as large in both
leading axes, and secondary smaller in some axis. -/
def size_similarly (labels secondary : NDArr Int) : NDArr Int × NDArr Bool :=
  if labels.shape.take 2 = secondary.shape.take 2 then
    (secondary, np_ones_bool secondary.shape)
  else if labels.shape.getD 0 0 ≤ secondary.shape.getD 0 0 ∧
      labels.shape.getD 1 0 ≤ secondary.shape.getD 1 0 then
    if secondary.ndim = 2 then
      (sliceLead secondary [labels.shape.getD 0 0, labels.shape.getD 1 0],
       np_ones_bool labels.shape)
    else
      (sliceLead secondary [labels.shape.getD 0 0, labels.shape.getD 1 0],
       np_ones_bool labels.shape)
  else
    (assignLead2 (np_zeros (labels.shape ++ secondary.shape.drop 2))
      (min (secondary.shape.getD 0 0) (labels.shape.getD 0 0))
      (min (secondary.shape.getD 1 0) (labels.shape.getD 1 0)) secondary.val,
     assignLead2 (np_zeros_bool labels.shape)
      (min (secondary.shape.getD 0 0) (labels.shape.getD 0 0))
      (min (secondary.shape.getD 1 0) (labels.shape.getD 1 0)) (fun _ => true))

theorem take_two_getD (l : List Nat) :
    (l.take 2).getD 0 0 = l.getD 0 0 ∧ (l.take 2).getD 1 0 = l.getD 1 0 := by
  rcases l with _ | ⟨a, _ | ⟨b, t⟩⟩ <;> simp [List.getD]

/-- Counterexample to C3: with a 2×2 labels matrix and a 2×2×3 multichannel
secondary the leading shapes match, and `size_similarly` returns a mask of
the secondary's full shape 2×2×3, not of the labels's shape 2×2. -/
theorem size_similarly_c3_cex :
    (size_similarly (constA [2, 2] 0) (constA [2, 2, 3] 5)).2.shape ≠
      (constA [2, 2] 0).shape := by
  decide

/-- C3 (amended): when the two leading shapes are equal, `size_similarly`
returns the secondary unchanged with an all-true mask of the secondary's
(not the labels's) shape; when the secondary is at least as large in both
leading axes but the leading shapes differ, it returns the origin crop of
the secondary with an all-true mask of the labels's shape; when the
secondary is smaller in some leading axis, it returns an array of the
labels's shape plus the secondary's trailing axes that equals the secondary
on the overlap region and is zero elsewhere, with a mask that is true
exactly on the overlap region. -/
theorem size_similarly_spec (labels secondary : NDArr Int) :
    (labels.shape.take 2 = secondary.shape.take 2 →
      (size_similarly labels secondary).1 = secondary ∧
      (size_similarly labels secondary).2.shape = secondary.shape ∧
      ∀ idx, (size_similarly labels secondary).2.val idx = true) ∧
    (labels.shape.take 2 ≠ secondary.shape.take 2 →
      labels.shape.getD 0 0 ≤ secondary.shape.getD 0 0 →
      labels.shape.getD 1 0 ≤ secondary.shape.getD 1 0 →
      (size_similarly labels secondary).1.shape =
        [labels.shape.getD 0 0, labels.shape.getD 1 0] ++ secondary.shape.drop 2 ∧
      (∀ idx, (size_similarly labels secondary).1.val idx = secondary.val idx) ∧
      (size_similarly labels secondary).2.shape = labels.shape ∧
      ∀ idx, (size_similarly labels secondary).2.val idx = true) ∧
    (¬ (labels.shape.getD 0 0 ≤ secondary.shape.getD 0 0 ∧
        labels.shape.getD 1 0 ≤ secondary.shape.getD 1 0) →
      (size_similarly labels secondary).1.shape =
        labels.shape ++ secondary.shape.drop 2 ∧
      (∀ idx, idx.getD 0 0 < min (secondary.shape.getD 0 0) (labels.shape.getD 0 0) →
        idx.getD 1 0 < min (secondary.shape.getD 1 0) (labels.shape.getD 1 0) →
        (size_similarly labels secondary).1.val idx = secondary.val idx) ∧
      (∀ idx, ¬ (idx.getD 0 0 < min (secondary.shape.getD 0 0) (labels.shape.getD 0 0) ∧
          idx.getD 1 0 < min (secondary.shape.getD 1 0) (labels.shape.getD 1 0)) →
        (size_similarly labels secondary).1.val idx = 0) ∧
      (size_similarly labels secondary).2.shape = labels.shape ∧
      (∀ idx, (size_similarly labels secondary).2.val idx = true ↔
        (idx.getD 0 0 < min (secondary.shape.getD 0 0) (labels.shape.getD 0 0) ∧
         idx.getD 1 0 < min (secondary.shape.getD 1 0) (labels.shape.getD 1 0)))) := by
  refine ⟨?_, ?_, ?_⟩
  · intro h
    unfold size_similarly
    rw [if_pos h]
    exact ⟨rfl, rfl, fun idx => rfl⟩
  · intro h h0 h1
    unfold size_similarly
    rw [if_neg h, if_pos ⟨h0, h1⟩]
    by_cases h2 : secondary.ndim = 2
    · rw [if_pos h2]
      exact ⟨rfl, fun idx => rfl, rfl, fun idx => rfl⟩
    · rw [if_neg h2]
      exact ⟨rfl, fun idx => rfl, rfl, fun idx => rfl⟩
  · intro h
    have hne : labels.shape.take 2 ≠ secondary.shape.take 2 := by
      intro he
      apply h
      constructor
      · rw [← (take_two_getD labels.shape).1, he, (take_two_getD secondary.shape).1]
      · rw [← (take_two_getD labels.shape).2, he, (take_two_getD secondary.shape).2]
    unfold size_similarly
    rw [if_neg hne, if_neg h]
    refine ⟨rfl, ?_, ?_, rfl, ?_⟩
    · intro idx hi hj
      simp only [assignLead2, np_zeros]
      rw [if_pos ⟨hi, hj⟩]
    · intro idx hnot
      simp only [assignLead2, np_zeros]
      rw [if_neg hnot]
    · intro idx
      simp only [assignLead2, np_zeros_bool]
      by_cases hov : (idx.getD 0 0 < min (secondary.shape.getD 0 0) (labels.shape.getD 0 0) ∧
          idx.getD 1 0 < min (secondary.shape.getD 1 0) (labels.shape.getD 1 0))
      · rw [if_pos hov]
        exact iff_of_true rfl hov
      · rw [if_neg hov]
        exact iff_of_false (by simp) hov

/-- Witness for the amended C3: a 3×3 labels matrix against a smaller 2×2
secondary, checked at overlap index (0,0), outside index (2,2), and mask
indices (1,1) and (2,1). -/
theorem size_similarly_spec_witness :
    (size_similarly (constA [3, 3] 1) (constA [2, 2] 9)).1.shape = [3, 3] ∧
    (size_similarly (constA [3, 3] 1) (constA [2, 2] 9)).1.val [0, 0] = 9 ∧
    (size_similarly (constA [3, 3] 1) (constA [2, 2] 9)).1.val [2, 2] = 0 ∧
    (size_similarly (constA [3, 3] 1) (constA [2, 2] 9)).2.shape = [3, 3] ∧
    (size_similarly (constA [3, 3] 1) (constA [2, 2] 9)).2.val [1, 1] = true ∧
    (size_similarly (constA [3, 3] 1) (constA [2, 2] 9)).2.val [2, 1] = false := by
  have h := (size_similarly_spec (constA [3, 3] 1) (constA [2, 2] 9)).2.2 (by decide)
  refine ⟨h.1, h.2.1 [0, 0] (by decide) (by decide), h.2.2.1 [2, 2] (by decide),
    h.2.2.2.1, (h.2.2.2.2 [1, 1]).mpr (by decide), ?_⟩
  cases hb : (size_similarly (constA [3, 3] 1) (constA [2, 2] 9)).2.val [2, 1]
  · rfl
  · exact absurd ((h.2.2.2.2 [2, 1]).mp hb).1 (by decide)

/-- C5: `crop_labels_and_image` crops both arrays from index 0 to the
elementwise minimum of the spatial shapes — for a 2-D labels matrix with a
2-D or multichannel 2-D image, and for a 3-D labels matrix with a 3-D or
multichannel 3-D image — preserving any trailing channel axis of the image
in full and leaving values at surviving indices unchanged. -/
theorem crop_labels_and_image_common_extent {α β : Type}
    (labels : NDArr α) (image : NDArr β)
    (h : labels.ndim = 2 ∧ (image.ndim = 2 ∨ image.ndim = 3) ∨
         labels.ndim = 3 ∧ (image.ndim = 3 ∨ image.ndim = 4)) :
    (crop_labels_and_image labels image).1.shape =
      List.zipWith min labels.shape (image.shape.take labels.ndim) ∧
    (crop_labels_and_image labels image).2.shape =
      List.zipWith min labels.shape (image.shape.take labels.ndim) ++
        image.shape.drop labels.ndim ∧
    (crop_labels_and_image labels image).1.val = labels.val ∧
    (crop_labels_and_image labels image).2.val = image.val := by
  rcases h with ⟨hl2, hi⟩ | ⟨hl3, hi⟩
  · obtain ⟨a, b, hls⟩ := List.length_eq_two.mp hl2
    have hnd : labels.ndim = 2 := hl2
    rcases hi with hi2 | hi3
    · obtain ⟨c, d, his⟩ := List.length_eq_two.mp hi2
      refine ⟨?_, ?_, ?_, ?_⟩ <;>
        simp [crop_labels_and_image, sliceLead, NDArr.ndim, hls, his, List.getD]
    · obtain ⟨c, d, e, his⟩ := List.length_eq_three.mp hi3
      refine ⟨?_, ?_, ?_, ?_⟩ <;>
        simp [crop_labels_and_image, sliceLead, NDArr.ndim, hls, his, List.getD]
  · obtain ⟨a, b, c, hls⟩ := List.length_eq_three.mp hl3
    rcases hi with hi3 | hi4
    · obtain ⟨d, e, f, his⟩ := List.length_eq_three.mp hi3
      refine ⟨?_, ?_, ?_, ?_⟩ <;>
        simp [crop_labels_and_image, sliceLead, NDArr.ndim, hls, his, List.getD]
    · obtain ⟨d, t, his, hlen⟩ : ∃ d t, image.shape = d :: t ∧ t.length = 3 := by
        rcases hs : image.shape with _ | ⟨d, t⟩
        · rw [NDArr.ndim, hs] at hi4
          simp at hi4
        · refine ⟨d, t, rfl, ?_⟩
          rw [NDArr.ndim, hs] at hi4
          simpa using hi4
      obtain ⟨e, f, g, hts⟩ := List.length_eq_three.mp hlen
      subst hts
      refine ⟨?_, ?_, ?_, ?_⟩ <;>
        simp [crop_labels_and_image, sliceLead, NDArr.ndim, hls, his, List.getD]

/-- Witness for C5: a 5×4 labels matrix with a 3×6×2 multichannel image. -/
theorem crop_labels_and_image_common_extent_witness :
    (crop_labels_and_image (constA [5, 4] 1) (constA [3, 6, 2] 7)).1.shape = [3, 4] ∧
    (crop_labels_and_image (constA [5, 4] 1) (constA [3, 6, 2] 7)).2.shape = [3, 4, 2] ∧
    (crop_labels_and_image (constA [5, 4] 1) (constA [3, 6, 2] 7)).1.val =
      (constA [5, 4] 1).val ∧
    (crop_labels_and_image (constA [5, 4] 1) (constA [3, 6, 2] 7)).2.val =
      (constA [3, 6, 2] 7).val := by
  have h := crop_labels_and_image_common_extent (constA [5, 4] 1) (constA [3, 6, 2] 7)
    (Or.inl ⟨by decide, Or.inr (by decide)⟩)
  exact ⟨h.1, h.2.1, h.2.2.1, h.2.2.2⟩

/-!
Buffer model.  A `Store` maps buffer identifiers to flat integer contents.
An `NView` is numpy array metadata: the backing buffer, the logical shape,
and the allocation shape `base` giving the row-major strides (an
origin-anchored basic slice keeps `base` and shrinks `shape`, sharing the
buffer; a fresh allocation has `base = shape`).
-/

/-- Flat row-major offset of an index list within an allocation shape. -/
def flattenRM : List Nat → List Nat → Nat
  | _ :: ss, i :: is => i * ss.prod + flattenRM ss is
  | _, _ => 0

/-- Inverse of `flattenRM` on valid offsets. -/
def unflattenRM : List Nat → Nat → List Nat
  | [], _ => []
  | _ :: ss, p => p / ss.prod :: unflattenRM ss (p % ss.prod)

/-- Memory: buffer identifier and flat position to stored value. -/
def Store : Type := Nat → Nat → Int

/-- Numpy array metadata over a `Store`. -/
structure NView where
  buf : Nat
  shape : List Nat
  base : List Nat

/-- Read `v[idx]` from the store. -/
def readV (σ : Store) (v : NView) (idx : List Nat) : Int :=
  σ v.buf (flattenRM v.base idx)

/-- The store after the single-element assignment `v[idx] = x`. -/
def writeV (σ : Store) (v : NView) (idx : List Nat) (x : Int) : Store :=
  fun b p => if b = v.buf ∧ p = flattenRM v.base idx then x else σ b p

/-- The store after allocating buffer `buf` with the given flat contents
(numpy `zeros`/`ones`/array construction). -/
def allocWrite (σ : Store) (buf : Nat) (content : Nat → Int) : Store :=
  fun b p => if b = buf then content p else σ b p

theorem take_two_eq_le {l s : List Nat} (he : l.take 2 = s.take 2) :
    l.getD 0 0 ≤ s.getD 0 0 ∧ l.getD 1 0 ≤ s.getD 1 0 := by
  constructor
  · rw [← (take_two_getD l).1, he, (take_two_getD s).1]
  · rw [← (take_two_getD l).2, he, (take_two_getD s).2]

/-- `size_similarly` in the buffer model.  Case (a) returns `secondary`
itself; case (b) returns an origin crop of `secondary` — same buffer, same
allocation shape, smaller logical shape, i.e. a view; case (c) allocates a
fresh zero buffer at `fresh` and copies the overlapping region into it.
The all-true / region masks are allocated at `fresh` (cases a and b) or
`fresh + 1` (case c), holding 0/1 for the boolean values. -/
def size_similarly_s (σ : Store) (labels secondary : NView) (fresh : Nat) :
    Store × NView × NView :=
  if labels.shape.take 2 = secondary.shape.take 2 then
    (allocWrite σ fresh (fun _ => 1),
     secondary,
     NView.mk fresh secondary.shape secondary.shape)
  else if labels.shape.getD 0 0 ≤ secondary.shape.getD 0 0 ∧
      labels.shape.getD 1 0 ≤ secondary.shape.getD 1 0 then
    if secondary.shape.length = 2 then
      (allocWrite σ fresh (fun _ => 1),
       NView.mk secondary.buf
         ([labels.shape.getD 0 0, labels.shape.getD 1 0] ++ secondary.shape.drop 2)
         secondary.base,
       NView.mk fresh labels.shape labels.shape)
    else
      (allocWrite σ fresh (fun _ => 1),
       NView.mk secondary.buf
         ([labels.shape.getD 0 0, labels.shape.getD 1 0] ++ secondary.shape.drop 2)
         secondary.base,
       NView.mk fresh labels.shape labels.shape)
  else
    (allocWrite
      (allocWrite σ fresh (fun p =>
        if (unflattenRM (labels.shape ++ secondary.shape.drop 2) p).getD 0 0 <
            min (secondary.shape.getD 0 0) (labels.shape.getD 0 0) ∧
           (unflattenRM (labels.shape ++ secondary.shape.drop 2) p).getD 1 0 <
            min (secondary.shape.getD 1 0) (labels.shape.getD 1 0) then
          readV σ secondary (unflattenRM (labels.shape ++ secondary.shape.drop 2) p)
        else 0))
      (fresh + 1) (fun p =>
        if (unflattenRM labels.shape p).getD 0 0 <
            min (secondary.shape.getD 0 0) (labels.shape.getD 0 0) ∧
           (unflattenRM labels.shape p).getD 1 0 <
            min (secondary.shape.getD 1 0) (labels.shape.getD 1 0) then 1 else 0),
     NView.mk fresh (labels.shape ++ secondary.shape.drop 2)
       (labels.shape ++ secondary.shape.drop 2),
     NView.mk (fresh + 1) labels.shape labels.shape)

/-- A concrete store with distinct values everywhere, for counterexamples. -/
def storeC : Store :=
  fun b p => Int.ofNat (b * 100 + p)

/-- A 1×1 labels view on buffer 0. -/
def labelsVc : NView :=
  NView.mk 0 [1, 1] [1, 1]

/-- A 2×2 secondary view on buffer 1. -/
def secondaryVc : NView :=
  NView.mk 1 [2, 2] [2, 2]

/-- Counterexample to C4: with a 1×1 labels matrix and a 2×2 secondary,
case (b) applies and the returned array is a view of the caller's secondary:
writing 99 into element (0,0) of the returned array changes element (0,0)
of the original secondary (it was 100). -/
theorem size_similarly_c4_cex :
    readV
      (writeV (size_similarly_s storeC labelsVc secondaryVc 2).1
        (size_similarly_s storeC labelsVc secondaryVc 2).2.1 [0, 0] 99)
      secondaryVc [0, 0] = 99 ∧
    readV storeC secondaryVc [0, 0] = 100 := by
  decide

/-- C4 (amended): in case (c) (secondary smaller in some leading axis) the
returned array is a fresh copy — after any single-element write to it every
element of the original secondary reads unchanged; in case (b) (secondary
strictly covering labels's leading shape) the returned array is a view
sharing the secondary's buffer and offsets, so writing element `idx` of the
returned array changes element `idx` of the original secondary. -/
theorem size_similarly_copy_semantics (σ : Store) (labels secondary : NView)
    (fresh : Nat) (hbuf : secondary.buf < fresh) :
    (¬ (labels.shape.getD 0 0 ≤ secondary.shape.getD 0 0 ∧
        labels.shape.getD 1 0 ≤ secondary.shape.getD 1 0) →
      ∀ idx x jdx,
        readV (writeV (size_similarly_s σ labels secondary fresh).1
            (size_similarly_s σ labels secondary fresh).2.1 idx x) secondary jdx =
          readV σ secondary jdx) ∧
    (labels.shape.take 2 ≠ secondary.shape.take 2 →
      labels.shape.getD 0 0 ≤ secondary.shape.getD 0 0 →
      labels.shape.getD 1 0 ≤ secondary.shape.getD 1 0 →
      (size_similarly_s σ labels secondary fresh).2.1.buf = secondary.buf ∧
      ∀ idx x,
        readV (writeV (size_similarly_s σ labels secondary fresh).1
            (size_similarly_s σ labels secondary fresh).2.1 idx x) secondary idx = x) := by
  constructor
  · intro hc idx x jdx
    have hne : labels.shape.take 2 ≠ secondary.shape.take 2 := by
      intro he
      exact hc (take_two_eq_le he)
    unfold size_similarly_s
    rw [if_neg hne, if_neg hc]
    unfold readV writeV allocWrite
    have h1 : secondary.buf ≠ fresh := by omega
    have h2 : secondary.buf ≠ fresh + 1 := by omega
    simp [h1, h2]
  · intro hne h0 h1
    unfold size_similarly_s
    rw [if_neg hne, if_pos ⟨h0, h1⟩]
    by_cases hnd : secondary.shape.length = 2
    · rw [if_pos hnd]
      refine ⟨rfl, ?_⟩
      intro idx x
      unfold readV writeV
      simp
    · rw [if_neg hnd]
      refine ⟨rfl, ?_⟩
      intro idx x
      unfold readV writeV
      simp

/-- Witness for the amended C4: case (c) with a 3×3 labels matrix and 2×2
secondary (the write to the fresh result leaves the secondary intact), and
case (b) with a 1×1 labels matrix and 2×2 secondary (the write lands in the
original secondary). -/
theorem size_similarly_copy_semantics_witness :
    readV
      (writeV (size_similarly_s storeC (NView.mk 0 [3, 3] [3, 3]) secondaryVc 2).1
        (size_similarly_s storeC (NView.mk 0 [3, 3] [3, 3]) secondaryVc 2).2.1 [0, 0] 99)
      secondaryVc [1, 1] = readV storeC secondaryVc [1, 1] ∧
    readV
      (writeV (size_similarly_s storeC labelsVc secondaryVc 2).1
        (size_similarly_s storeC labelsVc secondaryVc 2).2.1 [0, 0] 55)
      secondaryVc [0, 0] = 55 :=
  ⟨(size_similarly_copy_semantics storeC (NView.mk 0 [3, 3] [3, 3]) secondaryVc 2
      (by decide)).1 (by decide) [0, 0] 99 [1, 1],
   ((size_similarly_copy_semantics storeC labelsVc secondaryVc 2
      (by decide)).2 (by decide) (by decide) (by decide)).2 [0, 0] 55⟩

/-- Insert into a sorted list of integers. -/
def insertSorted (x : Int) : List Int → List Int
  | [] => [x]
  | y :: ys => if x ≤ y then x :: y :: ys else y :: insertSorted x ys

/-- Insertion sort over integers. -/
def sortInts : List Int → List Int
  | [] => []
  | x :: xs => insertSorted x (sortInts xs)

/-- `numpy.unique` of a flattened list: sorted distinct values. -/
def npUnique (l : List Int) : List Int :=
  sortInts l.dedup

/-- External collaborators of `overlay_labels`, kept abstract: the
matplotlib color table, numpy's RNG seeding and shuffling, and skimage's
`label2rgb` are third-party libraries outside this repository.
`toRgbaContent n` is the flat content of the fresh (n,3) array
`to_rgba(arange(n))[:, :3]`; `seedFn` maps a seed to the RNG state
`numpy.random.seed` installs; `shuffleFn` consumes an RNG state and a flat
buffer content, returning the permuted content and the successor state;
`label2rgbContent lv pv cs a` is the content of
`label2rgb(labels, image=..., colors=..., alpha=a, ...)` — a pure function
of the label values `lv`, image values `pv`, color table `cs` and opacity,
returning the value at each index of the fresh RGB output array. -/
structure ColorLib where
  toRgbaContent : Nat → Nat → Int
  seedFn : Nat → Nat
  shuffleFn : Nat → (Nat → Int) → (Nat → Int) × Nat
  label2rgbContent : (List Nat → Int) → (List Nat → Int) → (Nat → Int) → Rat →
    List Nat → Int

/-- `labels.max()` over the store, `none` for an empty array. -/
def labelsMaxS (σ : Store) (labels : NView) : Option Int :=
  listMax ((allIdx labels.shape).map (readV σ labels))

/-- `labels.max() if max_label is None else max_label`: the lazy conditional
of `_colors`, evaluating the array maximum only when `max_label` is absent. -/
def colorsMax (σ : Store) (labels : NView) (max_label : Option Int) : Option Int :=
  match max_label with
  | some m => some m
  | none => labelsMaxS σ labels

/-- `_colors(labels, max_label, seed)` in the buffer model: build the
(m,3) color table at buffer `fresh`, reset the RNG state to `seedFn seed`
when a seed is given, and shuffle the table in place.  `none` models the
`ValueError` from `labels.max()` on an empty array. -/
def _colors_s (lib : ColorLib) (σ : Store) (labels : NView)
    (max_label : Option Int) (seed : Option Nat) (g : Nat) (fresh : Nat) :
    Option (Store × NView × Nat) :=
  match colorsMax σ labels max_label with
  | none => none
  | some m =>
    let pair := lib.shuffleFn (match seed with | some s => lib.seedFn s | none => g)
      (lib.toRgbaContent m.toNat)
    some (allocWrite σ fresh pair.1, NView.mk fresh [m.toNat, 3] [m.toNat, 3], pair.2)

/-- The values of plane `v[index]`, as a function of the within-plane index. -/
def planeVals (σ : Store) (v : NView) (index : Nat) : List Nat → Int :=
  fun idx2 => readV σ v (index :: idx2)

/-- `numpy.unique(labels[index])`. -/
def planeUnique (σ : Store) (labels : NView) (index : Nat) : List Int :=
  npUnique ((allIdx (labels.shape.drop 1)).map (planeVals σ labels index))

/-- Drop a leading zero label: `if unique_labels[0] == 0: unique_labels =
unique_labels[1:]` (the empty case cannot arise for a non-empty plane). -/
def trimZero : List Int → List Int
  | [] => []
  | x :: xs => if x = 0 then xs else x :: xs

/-- The fancy-indexed color selection `colors[unique_labels - 1]`: a fresh
(k,3) table whose row `r` is the color table's row `unique_labels[r] - 1`. -/
def selColors (colorsContent : Nat → Int) (u : List Int) : Nat → Int :=
  fun p => colorsContent ((u.getD (p / 3) 1 - 1).toNat * 3 + p % 3)

/-- `overlay_labels(pixel_data, labels, opacity, max_label, seed)` in the
buffer model.  After `_colors` fills the color buffer at `fresh`, the 3-D
branch allocates the zero overlay `labels.shape + (3,)` at `fresh + 1` and
writes each plane `index` below the pixel-data plane count with the
`label2rgb` output for that plane and its trimmed unique labels' colors;
the 2-D branch allocates the `label2rgb` output array at `fresh + 1`. -/
def overlay_labels_s (lib : ColorLib) (σ : Store) (pixel_data labels : NView)
    (opacity : Rat) (max_label : Option Int) (seed : Option Nat) (g : Nat)
    (fresh : Nat) : Option (Store × NView × Nat) :=
  match _colors_s lib σ labels max_label seed g fresh with
  | none => none
  | some (σ1, colors, g1) =>
    if labels.shape.length = 3 then
      some
        (allocWrite σ1 (fresh + 1) (fun p =>
          if (unflattenRM (labels.shape ++ [3]) p).getD 0 0 <
              pixel_data.shape.getD 0 0 then
            lib.label2rgbContent
              (planeVals σ1 labels ((unflattenRM (labels.shape ++ [3]) p).getD 0 0))
              (planeVals σ1 pixel_data ((unflattenRM (labels.shape ++ [3]) p).getD 0 0))
              (selColors (fun q => σ1 colors.buf q)
                (trimZero (planeUnique σ1 labels
                  ((unflattenRM (labels.shape ++ [3]) p).getD 0 0))))
              opacity ((unflattenRM (labels.shape ++ [3]) p).drop 1)
          else 0),
         NView.mk (fresh + 1) (labels.shape ++ [3]) (labels.shape ++ [3]),
         g1)
    else
      some
        (allocWrite σ1 (fresh + 1) (fun p =>
          lib.label2rgbContent (readV σ1 labels) (readV σ1 pixel_data)
            (fun q => σ1 colors.buf q) opacity
            (unflattenRM (labels.shape ++ [3]) p)),
         NView.mk (fresh + 1) (labels.shape ++ [3]) (labels.shape ++ [3]),
         g1)

/-- The memory after a call to `overlay_labels` (unchanged when the call
raises before writing anything). -/
def storeAfterOverlay (lib : ColorLib) (σ : Store) (pixel_data labels : NView)
    (opacity : Rat) (max_label : Option Int) (seed : Option Nat) (g : Nat)
    (fresh : Nat) : Store :=
  match overlay_labels_s lib σ pixel_data labels opacity max_label seed g fresh with
  | none => σ
  | some r => r.1

/-- A concrete instantiation of the external collaborators: a color table
listing flat positions, identity seeding, a shuffle that leaves the table
in place, and a `label2rgb` summing label, pixel and first color values. -/
def libC : ColorLib :=
  ColorLib.mk (fun n p => Int.ofNat (n + p)) (fun s => s)
    (fun gg c => (c, gg + 1))
    (fun lv pv cs _ idx => lv idx + pv idx + cs 0)

/-- A concrete instantiation whose shuffle genuinely depends on the RNG
state: on a two-row (2,3) table it rotates the rows by `state % 2`, a
permutation of the six flat entries; `label2rgb` reads the first color. -/
def libD : ColorLib :=
  ColorLib.mk (fun _ p => Int.ofNat p) (fun s => s)
    (fun gg c => (fun p => c ((p + 3 * (gg % 2)) % 6), gg + 1))
    (fun _ _ cs _ _ => cs 0)

/-- C8: `overlay_labels` never mutates the label matrix it is given: for
every pixel array, label matrix, opacity, max label, seed and RNG state,
every element of the label matrix's buffer after the call equals its value
before the call — the call only writes freshly allocated buffers. -/
theorem overlay_labels_no_mutation (lib : ColorLib) (σ : Store)
    (pixel_data labels : NView) (opacity : Rat) (max_label : Option Int)
    (seed : Option Nat) (g fresh : Nat) (hbuf : labels.buf < fresh) :
    ∀ p, storeAfterOverlay lib σ pixel_data labels opacity max_label seed g fresh
        labels.buf p = σ labels.buf p := by
  intro p
  have h1 : labels.buf ≠ fresh := by omega
  have h2 : labels.buf ≠ fresh + 1 := by omega
  unfold storeAfterOverlay overlay_labels_s _colors_s
  rcases hm : colorsMax σ labels max_label with _ | m
  · rfl
  · by_cases h3 : labels.shape.length = 3
    · simp [h3, allocWrite, h1, h2]
    · simp [h3, allocWrite, h1, h2]

/-- Witness for C8: a concrete 1×1 labels matrix on buffer 0, 1×1 pixel
data on buffer 2, seeded RNG, checked at flat position 5. -/
theorem overlay_labels_no_mutation_witness :
    storeAfterOverlay libC storeC (NView.mk 2 [1, 1] [1, 1]) (NView.mk 0 [1, 1] [1, 1])
        (7 / 10) none (some 3) 0 3 0 5 = storeC 0 5 :=
  overlay_labels_no_mutation libC storeC (NView.mk 2 [1, 1] [1, 1])
    (NView.mk 0 [1, 1] [1, 1]) (7 / 10) none (some 3) 0 3 (by decide) 5

/-- C10: with any fixed seed, two invocations of `overlay_labels` from
different ambient RNG states produce identical results (the seed fully
determines the color shuffle); with `seed = None` the output reads the
ambient RNG state, and two concrete runs from states 0 and 1 differ. -/
theorem overlay_labels_seed_determinism :
    (∀ (lib : ColorLib) (σ : Store) (pixel_data labels : NView) (opacity : Rat)
        (max_label : Option Int) (s g1 g2 fresh : Nat),
      overlay_labels_s lib σ pixel_data labels opacity max_label (some s) g1 fresh =
        overlay_labels_s lib σ pixel_data labels opacity max_label (some s) g2 fresh) ∧
    storeAfterOverlay libD storeC (NView.mk 3 [1, 1] [1, 1]) (NView.mk 0 [1, 1] [1, 1])
        (7 / 10) (some 2) none 0 1 2 0 ≠
      storeAfterOverlay libD storeC (NView.mk 3 [1, 1] [1, 1]) (NView.mk 0 [1, 1] [1, 1])
        (7 / 10) (some 2) none 1 1 2 0 := by
  constructor
  · intro lib σ pixel_data labels opacity max_label s g1 g2 fresh
    rfl
  · decide

end NucleusObject
